import Mathlib

/-!
Verification of the ASN.1 DER codec in asn1.js (FirstTimeEZ/asn1).

The JavaScript source is shallowly embedded: Node Buffers become List Nat,
JS numbers used as cursors and lengths become Int (JS bitwise operators work
on 32-bit two-complement values, modelled explicitly), functions that can
return undefined become Option, and decodeAKI, whose source can also throw a
TypeError or loop forever, returns a four-way result type.  While loops of
the source are rendered as fuel-indexed recursions; running out of fuel
models divergence of the source loop.
-/

set_option maxRecDepth 8192

/-- Buffer indexing: buffer[i] is the byte at i, or undefined (none) when i
is negative or at least the buffer length. -/
def jsIndex (l : List Nat) (i : Int) : Option Nat :=
  if i < 0 then none else l[i.toNat]?

/-- Node Buffer.slice (Uint8Array.subarray): a negative index counts from
the end, both indices are then clamped to [0, length], and the result is
empty when the end does not lie after the start. -/
def jsSlice (l : List Nat) (a b : Int) : List Nat :=
  let n : Int := l.length
  let s := if a < 0 then max (n + a) 0 else min a n
  let e := if b < 0 then max (n + b) 0 else min b n
  (l.take e.toNat).drop s.toNat

/-- Reinterpret a 32-bit pattern as a signed value, as JS ToInt32 does. -/
def signed32 (p : Nat) : Int :=
  if p % 2 ^ 32 < 2 ^ 31 then ((p % 2 ^ 32 : Nat) : Int)
  else ((p % 2 ^ 32 : Nat) : Int) - 2 ^ 32

/-- The 32-bit pattern of a JS number that is an integer (ToUint32). -/
def toUint32 (v : Int) : Nat := (v % (2 ^ 32 : Int)).toNat

/-- JS (a << k) | b: both operands are converted to 32-bit patterns, the
shift and the bitwise or act on the patterns, and the result is read back
as a signed 32-bit value. -/
def jsShlOr (a : Int) (k : Nat) (b : Int) : Int :=
  signed32 (Nat.lor (toUint32 a * 2 ^ k % 2 ^ 32) (toUint32 b))

/-- Big-endian accumulation of length bytes, as in the source loop
length = (length << 8) | buffer[offset + i]. -/
def lengthFromBytes (bytes : List Nat) : Int :=
  bytes.foldl (fun acc b => jsShlOr acc 8 b) 0

/-- JS ToUint8 as applied by Buffer.from to an array element: NaN becomes 0,
an integer is wrapped modulo 256. -/
def jsToUint8 : Option Int → Nat
  | none => 0
  | some v => (v % 256).toNat

/-- Division by two with truncation toward zero, as JS ToInteger applies to
the fractional result of the division in the final slice of decodeAKI. -/
def truncHalf (n : Int) : Int :=
  if 0 ≤ n then ((n.toNat / 2 : Nat) : Int) else -(((-n).toNat / 2 : Nat) : Int)

/-- One byte as two lower-case hex digits (Buffer.toString hex). -/
def byteToHex (b : Nat) : String :=
  String.mk [Nat.digitChar (b / 16 % 16), Nat.digitChar (b % 16)]

/-- Buffer.toString hex of a whole buffer: lower-case, two digits a byte. -/
def bytesToHex (l : List Nat) : String := String.join (l.map byteToHex)

/-- The record returned by readASN1Length.  The length is a JS number
produced by 32-bit arithmetic, hence an Int. -/
structure ASN1Len where
  length : Int
  lengthOfLength : Nat
deriving DecidableEq, Repr

/-- readASN1Length from src/asn1.js.  Offsets are JS numbers: a negative
offset passes the first bound check, buffer[offset] is then undefined, the
short-form comparison is false on undefined, undefined & 0x7F is 0, and the
function returns undefined; this path is folded into the jsIndex none case.
The loop reading the lengthOfLength bytes after the leading byte stays in
bounds by the preceding check and is rendered as a fold over that
sub-list. -/
def readASN1Length (buffer : List Nat) (offset : Int) : Option ASN1Len :=
  if (buffer.length : Int) ≤ offset then none
  else
    match jsIndex buffer offset with
    | none => none
    | some lengthByte =>
      if lengthByte < 0x80 then some ⟨lengthByte, 1⟩
      else
        let lengthOfLength := lengthByte &&& 0x7F
        if lengthOfLength = 0 then none
        else if (buffer.length : Int) ≤ offset + lengthOfLength then none
        else some ⟨lengthFromBytes ((buffer.drop (offset.toNat + 1)).take lengthOfLength),
                   lengthOfLength⟩

/-- The loop of encodeDERLength (bytes.unshift(temp & 0xFF); temp >>= 8),
with the strictly decreasing temp itself as fuel. -/
def derLenBytesF : Nat → Nat → List Nat → List Nat
  | 0, _, bytes => bytes
  | fuel + 1, temp, bytes =>
    if 0 < temp then derLenBytesF fuel (temp / 256) (temp % 256 :: bytes) else bytes

/-- encodeDERLength from src/asn1.js. -/
def encodeDERLength (length : Nat) : List Nat :=
  if length < 128 then [length]
  else
    let bytes := derLenBytesF length length []
    Nat.lor bytes.length 0x80 :: bytes

/-- readOuterSequence from src/asn1.js.  Note: the source never checks the
tag byte at offset 0, and the returned range starts at 2 + lengthOfLength,
where lengthOfLength counts only the bytes after the leading length byte. -/
def readOuterSequence (certBuffer : List Nat) : Option (List Nat) :=
  match readASN1Length certBuffer 1 with
  | some seq1 =>
    some (jsSlice certBuffer (2 + seq1.lengthOfLength)
      (2 + seq1.lengthOfLength + seq1.length))
  | none => none

/-- The while loop of readSequenceParts.  The source loop body does nothing
at all when readASN1Length returns undefined, so the cursor does not
advance; exhausting the fuel (none) models that divergence. -/
def rspLoop (innerSequence : List Nat) :
    Nat → Int → List (List Nat) → Option (List (List Nat))
  | 0, _, _ => none
  | fuel + 1, start, parts =>
    if start < (innerSequence.length : Int) then
      match readASN1Length innerSequence start with
      | none => rspLoop innerSequence fuel start parts
      | some seq1 =>
        let start1 := start + seq1.lengthOfLength
        let start2 := if seq1.lengthOfLength = 2 then start1 + 1 else start1
        let parts1 := parts ++ [jsSlice innerSequence start2 (start2 + seq1.length)]
        rspLoop innerSequence fuel (start2 + seq1.length + 1) parts1
    else some parts

/-- readSequenceParts from src/asn1.js, with explicit fuel for its while
loop: none is divergence, some none the undefined returned for an empty
parts list, some (some parts) a non-empty parts list. -/
def readSequenceParts (fuel : Nat) (innerSequence : List Nat) :
    Option (Option (List (List Nat))) :=
  (rspLoop innerSequence fuel 1 []).map
    (fun parts => if 0 < parts.length then some parts else none)

/-- decodeSerialNumber from src/asn1.js.  Where the source adds
certBuffer[offset] to the offset, an out-of-range read yields undefined and
the offset becomes NaN; the tag check that follows then reads undefined and
the source returns undefined, which is folded into the none branch.  When
the very last read certBuffer[offset] is undefined, the source computes
slice(NaN, NaN), an empty buffer, and returns its hex, the empty string. -/
def decodeSerialNumber (certBuffer : List Nat) : Option String :=
  if jsIndex certBuffer 0 ≠ some 0x30 then none
  else
    match readASN1Length certBuffer 1 with
    | none => none
    | some seq1 =>
      let offset : Int := 1 + seq1.lengthOfLength + 2
      match readASN1Length certBuffer offset with
      | none => none
      | some seq2 =>
        let offset := offset + seq2.lengthOfLength + 2
        if jsIndex certBuffer (offset - 1) ≠ some 0xA0 then none
        else
          match jsIndex certBuffer offset with
          | none => none
          | some v =>
            let offset := offset + v + 2
            if jsIndex certBuffer (offset - 1) ≠ some 0x02 then none
            else
              match jsIndex certBuffer offset with
              | none => some (bytesToHex (jsSlice certBuffer 0 0))
              | some s =>
                some (bytesToHex (jsSlice certBuffer (offset + 1) (offset + s + 1)))

/-- Splitting a character list at every dot, as JS String.prototype.split
with the separator "." does (the empty string yields one empty group). -/
def splitDot : List Char → List (List Char)
  | [] => [[]]
  | c :: rest =>
    if c = '.' then [] :: splitDot rest
    else
      match splitDot rest with
      | [] => [[c]]
      | g :: gs => (c :: g) :: gs

/-- Value of a decimal digit string. -/
def digitsVal (cs : List Char) : Nat := cs.foldl (fun a c => a * 10 + (c.toNat - 48)) 0

def isDigits (cs : List Char) : Bool := cs.all (fun c => decide ('0' ≤ c) && decide (c ≤ '9'))

/-- The host JS Number() conversion applied to one dot-free component
string, modelled for the decimal forms such a component can sensibly take:
the empty string converts to 0, a decimal digit string (with an optional
leading minus) to its value, anything else to NaN (none). -/
def parseJSNumber (cs : List Char) : Option Int :=
  match cs with
  | [] => some 0
  | c :: rest =>
    if c = '-' then
      if rest ≠ [] ∧ isDigits rest then some (-(digitsVal rest : Int)) else none
    else if isDigits (c :: rest) then some ((digitsVal (c :: rest) : Nat) : Int) else none

/-- The inner while loop of encodeDERObjectIdentifier, building the base-128
varint bytes of one component front to back; the strictly decreasing number
itself serves as fuel. -/
def varintLoopF : Nat → Nat → List Nat → List Nat
  | 0, _, bytes => bytes
  | fuel + 1, number, bytes =>
    if 0 < number then
      varintLoopF fuel (number / 128)
        (Nat.lor (number % 128) (if bytes.length ≠ 0 then 0x80 else 0) :: bytes)
    else bytes

def varintBytes (number : Nat) : List Nat := varintLoopF number number []

/-- The for loop of encodeDERObjectIdentifier over the components after the
first two.  A NaN component (none) throws nothing: both comparisons are
false on NaN and the varint loop body never runs, so nothing is pushed. -/
def oidLoop : List (Option Int) → List (Option Int) → Except String (List (Option Int))
  | [], encoded => .ok encoded
  | number :: rest, encoded =>
    match number with
    | none => oidLoop rest encoded
    | some v =>
      if v < 0 then .error "Invalid OID: negative numbers not allowed"
      else if v < 128 then oidLoop rest (encoded ++ [some v])
      else oidLoop rest (encoded ++ (varintBytes v.toNat).map (fun b => some ((b : Nat) : Int)))

/-- The first encoded byte, numbers[0] * 40 + numbers[1]; NaN on either
side makes the result NaN. -/
def oidFirst (numbers : List (Option Int)) : Option Int :=
  match numbers[0]?, numbers[1]? with
  | some (some a), some (some b) => some (a * 40 + b)
  | _, _ => none

/-- encodeDERObjectIdentifier from src/asn1.js.  The throw statements become
the error channel.  Note the final Buffer.from([encoded.length]): a single
length byte wrapped modulo 256, with no check against 127. -/
def encodeDERObjectIdentifier (oid : String) : Except String (List Nat) :=
  let numbers := (splitDot oid.data).map parseJSNumber
  if numbers.length < 2 then .error "Invalid OID: must have at least 2 components"
  else
    match oidLoop (numbers.drop 2) [oidFirst numbers] with
    | .error e => .error e
    | .ok encoded => .ok (0x06 :: encoded.length % 256 :: encoded.map jsToUint8)

/-- The accumulation loop of bytesToOID: each byte contributes its low 7
bits, and a clear high bit closes the current component. -/
def oidDecodeLoop : List Nat → Int → List String → List String
  | [], _, comps => comps
  | b :: rest, currentComponent, comps =>
    let c := jsShlOr currentComponent 7 ((b &&& 0x7F : Nat) : Int)
    if b &&& 0x80 = 0 then oidDecodeLoop rest 0 (comps ++ [toString c])
    else oidDecodeLoop rest c comps

/-- bytesToOID from src/asn1.js.  When byteArray[1] is undefined the slice
end is NaN and the body is empty; when the body is empty the first byte is
undefined and both leading components are the string NaN, as
Math.floor(undefined / 40) and undefined % 40 print. -/
def bytesToOID (byteArray : List Nat) : Option String :=
  if jsIndex byteArray 0 ≠ some 0x06 then none
  else
    let oidBytes :=
      match jsIndex byteArray 1 with
      | none => []
      | some length => jsSlice byteArray 2 (2 + length)
    match oidBytes[0]? with
    | none => some (String.intercalate "." (oidDecodeLoop (oidBytes.drop 1) 0 ["NaN", "NaN"]))
    | some firstByte =>
      some (String.intercalate "." (oidDecodeLoop (oidBytes.drop 1) 0
        [toString (firstByte / 40), toString (firstByte % 40)]))

/-- Result of a JS call that can return a value, return undefined, throw a
TypeError, or never return. -/
inductive JSOut (α : Type) where
  | ok (a : α)
  | undef
  | crash
  | diverge
deriving DecidableEq, Repr

/-- The find-the-extensions while loop of decodeAKI.  At each pass the
source checks tbsCertficate[offset - 1] against 0xA3, reads a length at
offset (returning undefined aborts the whole decode), peeks at
tbsCertficate[offset] for 0xA3, and otherwise skips one element. -/
def akiScanLoop (tbs : List Nat) : Nat → Int → JSOut (Bool × Int)
  | 0, _ => .diverge
  | fuel + 1, offset =>
    if jsIndex tbs (offset - 1) ≠ some 0xA3 then
      match readASN1Length tbs offset with
      | none => .undef
      | some skipSequences =>
        if jsIndex tbs offset = some 0xA3 then .ok (false, offset + 1)
        else
          akiScanLoop tbs fuel
            (offset + 1 + skipSequences.length + skipSequences.lengthOfLength)
    else .ok (true, offset)

/-- decodeAKI from src/asn1.js, up to the computation of innerExtensions.
The source dereferences the results of the version and serial number length
reads without undefined checks, so those paths crash with a TypeError. -/
def decodeAKIInner (fuel : Nat) (certBuffer : List Nat) : JSOut (List (List Nat)) :=
  if jsIndex certBuffer 0 ≠ some 0x30 then .undef
  else
    match readOuterSequence certBuffer with
    | none => .undef
    | some certificate =>
      match readOuterSequence certificate with
      | none => .undef
      | some tbsCertficate =>
        if jsIndex tbsCertficate 0 ≠ some 0xA0 then .undef
        else
          match readASN1Length tbsCertficate 1 with
          | none => .crash
          | some versionLen =>
            let offset : Int := 1 + versionLen.length + versionLen.lengthOfLength
            if jsIndex tbsCertficate offset ≠ some 0x02 then .undef
            else
              match readASN1Length tbsCertficate (offset + 1) with
              | none => .crash
              | some serialNumberLen =>
                let offset := offset + 1 + serialNumberLen.length +
                  serialNumberLen.lengthOfLength
                if jsIndex tbsCertficate offset ≠ some 0x30 then .undef
                else
                  match akiScanLoop tbsCertficate fuel (offset + 1) with
                  | .diverge => .diverge
                  | .crash => .crash
                  | .undef => .undef
                  | .ok (check, offset1) =>
                    if check = true ∧ jsIndex tbsCertficate (offset1 - 1) ≠ some 0xA3 then
                      .undef
                    else
                      match readASN1Length tbsCertficate offset1 with
                      | none => .undef
                      | some extensions =>
                        let offset2 := offset1 + extensions.lengthOfLength
                        let sliced :=
                          if check = false then
                            jsSlice tbsCertficate (offset2 - 1)
                              (offset2 + extensions.length + 1)
                          else
                            jsSlice tbsCertficate (offset2 + 1)
                              (offset2 + extensions.length + 1)
                        match readOuterSequence sliced with
                        | none => .undef
                        | some outerSequence =>
                          match readSequenceParts fuel outerSequence with
                          | none => .diverge
                          | some none => .undef
                          | some (some innerExtensions) => .ok innerExtensions

/-- decodeAKI from src/asn1.js: the OID scan over innerExtensions and the
final unwrap of the AKI value.  The source indexes akiParts, and
dereferences the akiLength record, without undefined checks; those paths
crash with a TypeError. -/
def decodeAKI (fuel : Nat) (certBuffer : List Nat) : JSOut String :=
  match decodeAKIInner fuel certBuffer with
  | .diverge => .diverge
  | .crash => .crash
  | .undef => .undef
  | .ok innerExtensions =>
    let rawAKI := innerExtensions.foldl
      (fun acc part => if bytesToOID part = some "2.5.29.35" then some part else acc) none
    match rawAKI with
    | none => .undef
    | some rawAKI =>
      match readSequenceParts fuel rawAKI with
      | none => .diverge
      | some none => .crash
      | some (some akiParts) =>
        match akiParts[1]? with
        | none => .crash
        | some akiPart =>
          match readASN1Length akiPart 0 with
          | none => .crash
          | some akiLength =>
            .ok (bytesToHex (jsSlice akiPart ((akiLength.lengthOfLength : Int) + 3)
              (truncHalf (akiLength.lengthOfLength + akiLength.length))))

/-! Helper lemmas about the JS primitives. -/

theorem jsIndex_natCast (l : List Nat) (i : Nat) : jsIndex l (i : Int) = l[i]? := by
  simp [jsIndex]

theorem jsIndex_at (pre : List Nat) (b : Nat) (tail : List Nat) :
    jsIndex (pre ++ b :: tail) (pre.length : Int) = some b := by
  rw [jsIndex_natCast, List.getElem?_append_right (le_refl _)]
  simp

theorem land127 (k : Nat) (h : k ≤ 127) : (128 + k) &&& 127 = k := by
  have h7 : (127 : Nat) = 2 ^ 7 - 1 := rfl
  rw [h7, Nat.and_pow_two_sub_one_eq_mod]
  omega

theorem readASN1Length_short (pre : List Nat) (b : Nat) (tail : List Nat) (hb : b < 128) :
    readASN1Length (pre ++ b :: tail) (pre.length : Int) = some ⟨b, 1⟩ := by
  unfold readASN1Length
  have hlen : ¬ (((pre ++ b :: tail).length : Int) ≤ (pre.length : Int)) := by
    simp only [List.length_append, List.length_cons]
    push_cast
    omega
  rw [if_neg hlen, jsIndex_at]
  simp [hb]

theorem readASN1Length_long (pre lb tail : List Nat) (k : Nat)
    (h1 : 1 ≤ k) (h2 : k ≤ 127) (hlb : lb.length = k) :
    readASN1Length (pre ++ (128 + k) :: (lb ++ tail)) (pre.length : Int)
      = some ⟨lengthFromBytes lb, k⟩ := by
  unfold readASN1Length
  have hlen : ¬ (((pre ++ (128 + k) :: (lb ++ tail)).length : Int) ≤ (pre.length : Int)) := by
    simp only [List.length_append, List.length_cons]
    push_cast
    omega
  rw [if_neg hlen, jsIndex_at]
  dsimp only
  have hnot : ¬ ((128 + k) < 0x80) := by omega
  rw [if_neg hnot, land127 k h2]
  have hk0 : ¬ (k = 0) := by omega
  rw [if_neg hk0]
  have hbound : ¬ (((pre ++ (128 + k) :: (lb ++ tail)).length : Int)
      ≤ (pre.length : Int) + (k : Int)) := by
    simp only [List.length_append, List.length_cons, hlb]
    push_cast
    omega
  rw [if_neg hbound]
  have hdrop : (pre ++ (128 + k) :: (lb ++ tail)).drop
      (((pre.length : Nat) : Int).toNat + 1) = lb ++ tail := by
    have hassoc : pre ++ (128 + k) :: (lb ++ tail) = (pre ++ [128 + k]) ++ (lb ++ tail) := by
      simp
    rw [hassoc, Int.toNat_natCast, List.drop_left' (by simp)]
  rw [hdrop, List.take_left' hlb]

theorem jsSlice_nat (l : List Nat) (a b : Nat) :
    jsSlice l (a : Int) (b : Int) = (l.take b).drop a := by
  unfold jsSlice
  dsimp only
  have ha : ¬ ((a : Int) < 0) := by omega
  have hb : ¬ ((b : Int) < 0) := by omega
  rw [if_neg ha, if_neg hb]
  have hmin : ∀ c : Nat, min (c : Int) ((l.length : Nat) : Int) = ((min c l.length : Nat) : Int) :=
    fun c => (Nat.cast_min c l.length).symm
  rw [hmin a, hmin b, Int.toNat_natCast, Int.toNat_natCast]
  have tk : l.take (min b l.length) = l.take b := by
    rcases le_total b l.length with h | h
    · rw [min_eq_left h]
    · rw [min_eq_right h, List.take_length, List.take_of_length_le h]
  rw [tk]
  rcases le_total a l.length with h | h
  · rw [min_eq_left h]
  · rw [min_eq_right h, List.drop_eq_nil_of_le, List.drop_eq_nil_of_le]
    · simp only [List.length_take]
      omega
    · simp only [List.length_take]
      omega

theorem jsSlice_middle (pre v post : List Nat) :
    jsSlice (pre ++ v ++ post) (pre.length : Int) ((pre.length : Int) + (v.length : Int)) = v := by
  have hcast : (pre.length : Int) + (v.length : Int) = ((pre.length + v.length : Nat) : Int) := by
    push_cast
    ring
  rw [hcast, jsSlice_nat, List.take_left' (by simp), List.drop_left]

/-! Concrete evaluations settling counterexamples and code bugs. -/

/-- C1 counterexample: this 12-byte buffer matches the Certificate grammar
of the claim (outer SEQUENCE, tbsCertificate SEQUENCE, [0] version, INTEGER
serial 0x01) using short-form lengths, yet decodeSerialNumber returns
undefined instead of the serial hex "01": its offset arithmetic assumes
long-form lengths for the two outer SEQUENCEs. -/
theorem decodeSerialNumber_c1_cex :
    decodeSerialNumber [0x30, 0x0A, 0x30, 0x08, 0xA0, 0x03, 0x02, 0x01, 0x02,
      0x02, 0x01, 0x01] = none := by decide

/-- C2: on this malformed buffer decodeAKI reaches the version length read
with a one-byte tbsCertficate, readASN1Length returns undefined, and the
source dereferences versionLen.length, a TypeError crash rather than an
error-channel failure. -/
theorem decodeAKI_c2_crash :
    decodeAKI 5 [0x30, 0x04, 0x00, 0x30, 0x01, 0x00, 0xA0] = .crash := by decide

/-- C3 counterexample: for n = 128 the encoded form is [0x81, 0x80], with
k = 1 length bytes after the leading byte; the claim says lengthOfLength is
k + 1 = 2, but readASN1Length returns lengthOfLength = k = 1. -/
theorem length_roundtrip_c3_cex :
    readASN1Length (encodeDERLength 128) 0 = some ⟨128, 1⟩ ∧
    readASN1Length (encodeDERLength 128) 0 ≠ some ⟨128, 2⟩ := by decide

/-- C3 amended: the length value round-trips for every n in the list, and
the returned lengthOfLength is 1 in short form and k, the number of length
bytes after the leading size-indicator byte, in long form. -/
theorem length_roundtrip_c3 :
    readASN1Length (encodeDERLength 0) 0 = some ⟨0, 1⟩ ∧
    readASN1Length (encodeDERLength 1) 0 = some ⟨1, 1⟩ ∧
    readASN1Length (encodeDERLength 127) 0 = some ⟨127, 1⟩ ∧
    readASN1Length (encodeDERLength 128) 0 = some ⟨128, 1⟩ ∧
    readASN1Length (encodeDERLength 255) 0 = some ⟨255, 1⟩ ∧
    readASN1Length (encodeDERLength 65535) 0 = some ⟨65535, 2⟩ ∧
    readASN1Length (encodeDERLength 16777215) 0 = some ⟨16777215, 3⟩ := by decide

/-- C4 counterexample: readOuterSequence accepts a buffer whose first byte
is 0x00, not 0x30 (no tag check exists), and on a short-form SEQUENCE it
skips one content byte: for 30 02 09 08 the content is [09, 08] but the
function returns [08]. -/
theorem readOuterSequence_c4_cex :
    readOuterSequence [0x00, 0x03, 0x09, 0x08, 0x07] = some [0x08, 0x07] ∧
    readOuterSequence [0x30, 0x02, 0x09, 0x08] = some [0x08] := by decide

/-- C6 counterexample: for empty content readSequenceParts returns
undefined, not an empty list, and for the single INTEGER TLV 02 01 05 the
returned slice is the value [05] alone, without the tag byte. -/
theorem readSequenceParts_c6_cex :
    readSequenceParts 2 [] = some none ∧
    readSequenceParts 2 [0x02, 0x01, 0x05] = some (some [[0x05]]) := by decide

/-- C8 counterexample: a negative first component is not rejected; the
first byte is computed as -1 * 40 + 2 = -38, which Buffer.from wraps to
0xDA, and the encoder returns a buffer instead of failing. -/
theorem encodeOID_c8_cex :
    encodeDERObjectIdentifier "-1.2" = .ok [0x06, 0x01, 0xDA] := by
  have h : (encodeDERObjectIdentifier "-1.2").toOption = some [0x06, 0x01, 0xDA] := by decide
  cases he : encodeDERObjectIdentifier "-1.2" <;> rw [he] at h <;>
    simp [Except.toOption] at h
  rw [h]

/-- C9: encoding the OID 1.2.840.113549.1.1.11 and decoding the resulting
bytes yields the same dotted string back. -/
theorem oid_roundtrip_c9 :
    (match encodeDERObjectIdentifier "1.2.840.113549.1.1.11" with
      | .ok b => bytesToOID b
      | .error _ => none) = some "1.2.840.113549.1.1.11" := by decide

/-! The readSequenceParts loop: divergence on a stuck state, and the value
slices it produces on well-formed short-form content. -/

theorem rspLoop_stuck (fuel : Nat) : rspLoop [0x00, 0x80] fuel 1 [] = none := by
  induction fuel with
  | zero => rfl
  | succ n ih =>
    rw [rspLoop]
    have hc : (1 : Int) < ((([0x00, 0x80] : List Nat).length : Nat) : Int) := by decide
    rw [if_pos hc]
    have hr : readASN1Length [0x00, 0x80] 1 = none := by decide
    rw [hr]
    exact ih

/-- C5: the while loop of readSequenceParts does not advance and does not
break when a length read fails before the end of the content, so on the
two-byte content 00 80 (an indefinite length byte at offset 1) the source
loops forever: no amount of fuel completes the call. -/
theorem readSequenceParts_c5 (fuel : Nat) : readSequenceParts fuel [0x00, 0x80] = none := by
  unfold readSequenceParts
  rw [rspLoop_stuck]
  rfl

/-- Concatenation of short-form TLV children: tag byte, single length byte,
value. -/
def seqConcat (children : List (Nat × List Nat)) : List Nat :=
  (children.map (fun c => c.1 :: c.2.length :: c.2)).flatten

theorem rspLoop_run (children : List (Nat × List Nat)) :
    ∀ (pre : List Nat) (parts : List (List Nat)) (fuel : Nat),
      children.length + 1 ≤ fuel →
      (∀ c ∈ children, c.2.length < 128) →
      rspLoop (pre ++ seqConcat children) fuel ((pre.length : Int) + 1) parts
        = some (parts ++ children.map Prod.snd) := by
  induction children with
  | nil =>
    intro pre parts fuel hf hs
    match fuel, hf with
    | fuel + 1, _ =>
      rw [rspLoop]
      have hc : ¬ ((pre.length : Int) + 1 < (((pre ++ seqConcat []).length : Nat) : Int)) := by
        simp only [seqConcat, List.map_nil, List.flatten_nil, List.append_nil]
        omega
      rw [if_neg hc]
      simp
  | cons hd tl ih =>
    intro pre parts fuel hf hs
    obtain ⟨t, v⟩ := hd
    match fuel, hf with
    | fuel + 1, hf =>
      have hshape : pre ++ seqConcat ((t, v) :: tl)
          = (pre ++ [t]) ++ (v.length :: (v ++ seqConcat tl)) := by
        simp [seqConcat]
      have hv : v.length < 128 := hs (t, v) (by simp)
      rw [rspLoop]
      have hc : (pre.length : Int) + 1 < (((pre ++ seqConcat ((t, v) :: tl)).length : Nat) : Int) := by
        rw [hshape]
        simp only [List.length_append, List.length_cons, List.length_append]
        push_cast
        omega
      rw [if_pos hc]
      have hread : readASN1Length (pre ++ seqConcat ((t, v) :: tl)) ((pre.length : Int) + 1)
          = some ⟨v.length, 1⟩ := by
        have h := readASN1Length_short (pre ++ [t]) v.length (v ++ seqConcat tl) hv
        rw [← hshape] at h
        have hlen : (((pre ++ [t]).length : Nat) : Int) = (pre.length : Int) + 1 := by
          simp
        rw [hlen] at h
        exact h
      rw [hread]
      dsimp only
      rw [if_neg (by omega : ¬ (1 : Nat) = 2)]
      have hslice : jsSlice (pre ++ seqConcat ((t, v) :: tl))
          ((pre.length : Int) + 1 + 1) ((pre.length : Int) + 1 + 1 + (v.length : Int))
          = v := by
        have hshape2 : pre ++ seqConcat ((t, v) :: tl)
            = (pre ++ [t, v.length]) ++ v ++ seqConcat tl := by
          simp [seqConcat]
        have h := jsSlice_middle (pre ++ [t, v.length]) v (seqConcat tl)
        rw [← hshape2] at h
        have hlen2 : (((pre ++ [t, v.length]).length : Nat) : Int) = (pre.length : Int) + 1 + 1 := by
          simp [List.length_append]
          ring
        rw [hlen2] at h
        exact h
      push_cast
      rw [hslice]
      have hnext : (pre.length : Int) + 1 + 1 + (v.length : Int) + 1
          = (((pre ++ (t :: v.length :: v)).length : Nat) : Int) + 1 := by
        simp [List.length_append, List.length_cons]
        ring
      have hshape3 : pre ++ seqConcat ((t, v) :: tl)
          = (pre ++ (t :: v.length :: v)) ++ seqConcat tl := by
        simp [seqConcat]
      rw [hnext, hshape3]
      have htl : ∀ c ∈ tl, c.2.length < 128 := fun c hc => hs c (by simp [hc])
      have := ih (pre ++ (t :: v.length :: v)) (parts ++ [v]) fuel (by simpa using hf) htl
      rw [this]
      simp

/-- C6 amended: for non-empty well-formed content made of short-form TLV
children, readSequenceParts returns the ordered list of the children VALUE
slices: the tag byte and length byte are not part of the returned slices.
For empty content it returns undefined (a failure), not an empty list. -/
theorem readSequenceParts_c6 :
    readSequenceParts 1 [] = some none ∧
    ∀ (children : List (Nat × List Nat)) (fuel : Nat),
      children ≠ [] →
      children.length + 1 ≤ fuel →
      (∀ c ∈ children, c.2.length < 128) →
      readSequenceParts fuel (seqConcat children) = some (some (children.map Prod.snd)) := by
  constructor
  · rfl
  · intro children fuel hne hf hs
    unfold readSequenceParts
    have h := rspLoop_run children [] [] fuel hf hs
    simp only [List.nil_append, List.length_nil, Nat.cast_zero, zero_add] at h
    rw [h]
    have hpos : 0 < (children.map Prod.snd).length := by
      simp only [List.length_map]
      exact List.length_pos.mpr hne
    simp [hpos, hne]

/-- C6 witness: one INTEGER child 02 01 05 with fuel 2 yields the single
value slice [05]. -/
theorem readSequenceParts_c6_witness :
    readSequenceParts 2 [0x02, 0x01, 0x05] = some (some [[0x05]]) := by
  have h := readSequenceParts_c6.2 [(0x02, [0x05])] 2 (by simp) (by decide) (by decide)
  simpa [seqConcat] using h

/-! C4, C7, C8, C10: the quantified theorems over the structural walker and
the OID encoder. -/

/-- C4 amended: readOuterSequence performs no tag check on the first byte:
it fails exactly when the length read at offset 1 fails, and for a
long-form length of k bytes after the leading size byte it returns exactly
the content range following the tag and length field, whatever the first
byte is.  (For a short-form length the returned range starts one byte too
late, as the counterexample shows.) -/
theorem readOuterSequence_c4 :
    (∀ buf : List Nat, readOuterSequence buf = none ↔ readASN1Length buf 1 = none) ∧
    (∀ (b0 k : Nat) (lb content rest : List Nat), 1 ≤ k → k ≤ 127 → lb.length = k →
      lengthFromBytes lb = (content.length : Int) →
      readOuterSequence (b0 :: ((128 + k) :: (lb ++ (content ++ rest)))) = some content) := by
  constructor
  · intro buf
    unfold readOuterSequence
    cases h : readASN1Length buf 1 <;> simp
  · intro b0 k lb content rest h1 h2 hlb hval
    unfold readOuterSequence
    have hread := readASN1Length_long [b0] lb (content ++ rest) k h1 h2 hlb
    have hsh : ([b0] : List Nat) ++ ((128 + k) :: (lb ++ (content ++ rest)))
        = b0 :: ((128 + k) :: (lb ++ (content ++ rest))) := by simp
    rw [hsh] at hread
    have hone : ((([b0] : List Nat).length : Nat) : Int) = 1 := by simp
    rw [hone] at hread
    rw [hread]
    dsimp only
    rw [hval]
    have h := jsSlice_middle (b0 :: (128 + k) :: lb) content rest
    have hlen : (((b0 :: (128 + k) :: lb).length : Nat) : Int) = 2 + (k : Int) := by
      simp [hlb]
      ring
    rw [hlen] at h
    have hsh2 : (b0 :: (128 + k) :: lb) ++ content ++ rest
        = b0 :: ((128 + k) :: (lb ++ (content ++ rest))) := by simp
    rw [hsh2] at h
    rw [h]

/-- C4 witness: a buffer with first byte 0x00 and a one-byte long-form
length 0x81 0x02 unwraps to exactly its two content bytes. -/
theorem readOuterSequence_c4_witness :
    readOuterSequence [0x00, 0x81, 0x02, 0x07, 0x08] = some [0x07, 0x08] := by
  have h := readOuterSequence_c4.2 0x00 1 [0x02] [0x07, 0x08] []
    (by omega) (by omega) (by decide) (by decide)
  simpa using h

theorem aki_fold_none (l : List (List Nat))
    (hno : ∀ e ∈ l, bytesToOID e ≠ some "2.5.29.35") :
    l.foldl (fun acc part => if bytesToOID part = some "2.5.29.35" then some part else acc)
      (none : Option (List Nat)) = none := by
  induction l with
  | nil => rfl
  | cons hd t ih =>
    simp only [List.foldl_cons]
    rw [if_neg (hno hd (by simp))]
    exact ih (fun e he => hno e (by simp [he]))

/-- C7: whenever decodeAKI reaches its extension scan with a list of
extension slices none of which carries OID 2.5.29.35, the whole decode
fails through the error channel (undefined), not with an empty or zero
string. -/
theorem decodeAKI_c7 (fuel : Nat) (cert : List Nat) (exts : List (List Nat))
    (h : decodeAKIInner fuel cert = .ok exts)
    (hno : ∀ e ∈ exts, bytesToOID e ≠ some "2.5.29.35") :
    decodeAKI fuel cert = .undef := by
  unfold decodeAKI
  rw [h]
  dsimp only
  rw [aki_fold_none exts hno]

/-- C7 witness: a 32-byte certificate whose single extension carries OID
2.5.29.14 (subject key identifier), not 2.5.29.35. -/
theorem decodeAKI_c7_witness :
    decodeAKI 20 [0x30, 0x81, 0x1D, 0x30, 0x81, 0x1A, 0xA0, 0x03, 0x02, 0x01, 0x02,
      0x02, 0x01, 0x05, 0x30, 0x02, 0x05, 0x00, 0xA3, 0x82, 0x00, 0x0A, 0x30, 0x81,
      0x07, 0x30, 0x05, 0x06, 0x03, 0x55, 0x1D, 0x0E] = .undef :=
  decodeAKI_c7 20 _ [[0x06, 0x03, 0x55, 0x1D, 0x0E]] (by decide) (by decide)

theorem oidLoop_neg (l : List (Option Int)) :
    ∀ acc, (∃ o ∈ l, ∃ v, o = some v ∧ v < 0) →
      oidLoop l acc = .error "Invalid OID: negative numbers not allowed" := by
  induction l with
  | nil =>
    intro acc h
    simp at h
  | cons hd tl ih =>
    intro acc h
    rcases h with ⟨o, ho, v, hov, hneg⟩
    cases hd with
    | none =>
      show oidLoop tl acc = _
      apply ih
      rcases List.mem_cons.mp ho with h1 | h1
      · rw [h1] at hov
        cases hov
      · exact ⟨o, h1, v, hov, hneg⟩
    | some w =>
      by_cases hw : w < 0
      · show (if w < 0 then _ else _) = _
        rw [if_pos hw]
      · have hmemtl : ∃ o ∈ tl, ∃ v, o = some v ∧ v < 0 := by
          rcases List.mem_cons.mp ho with h1 | h1
          · rw [h1] at hov
            injection hov with hv
            omega
          · exact ⟨o, h1, v, hov, hneg⟩
        show (if w < 0 then _ else _) = _
        rw [if_neg hw]
        by_cases hw2 : w < 128
        · rw [if_pos hw2]
          exact ih _ hmemtl
        · rw [if_neg hw2]
          exact ih _ hmemtl

/-- C8 amended: encodeDERObjectIdentifier fails with the too-few-components
error when the split yields fewer than 2 components, and with the
negative-number error when some component at index 2 or later is negative;
the first two components are never checked for negativity (the
counterexample shows a negative first component encoding successfully). -/
theorem encodeOID_c8 (oid : String) :
    (((splitDot oid.data).map parseJSNumber).length < 2 →
      encodeDERObjectIdentifier oid = .error "Invalid OID: must have at least 2 components") ∧
    (2 ≤ ((splitDot oid.data).map parseJSNumber).length →
      (∃ o ∈ ((splitDot oid.data).map parseJSNumber).drop 2, ∃ v, o = some v ∧ v < 0) →
      encodeDERObjectIdentifier oid = .error "Invalid OID: negative numbers not allowed") := by
  constructor
  · intro h
    unfold encodeDERObjectIdentifier
    rw [if_pos h]
  · intro h2 hneg
    unfold encodeDERObjectIdentifier
    rw [if_neg (by omega)]
    rw [oidLoop_neg _ _ hneg]

/-- C8 witness: a single component fails with the arity error; a negative
third component fails with the negativity error. -/
theorem encodeOID_c8_witness :
    encodeDERObjectIdentifier "1" = .error "Invalid OID: must have at least 2 components" ∧
    encodeDERObjectIdentifier "1.2.-3" = .error "Invalid OID: negative numbers not allowed" :=
  ⟨(encodeOID_c8 "1").1 (by decide),
   (encodeOID_c8 "1.2.-3").2 (by decide) ⟨some (-3), by decide, -3, rfl, by decide⟩⟩

theorem oidLoop_ok (l : List (Option Int)) :
    ∀ acc, (∀ o ∈ l, 0 ≤ o.getD 0) → ∃ enc, oidLoop l acc = .ok enc := by
  induction l with
  | nil =>
    intro acc _
    exact ⟨acc, rfl⟩
  | cons hd tl ih =>
    intro acc h
    have htl : ∀ o ∈ tl, 0 ≤ o.getD 0 := fun o ho => h o (by simp [ho])
    cases hd with
    | none => exact ih acc htl
    | some w =>
      have hw : 0 ≤ w := by simpa using h (some w) (by simp)
      show ∃ enc, (if w < 0 then _ else _) = _
      rw [if_neg (by omega : ¬ w < 0)]
      by_cases hw2 : w < 128
      · rw [if_pos hw2]
        exact ih _ htl
      · rw [if_neg hw2]
        exact ih _ htl

/-- C10: for a dotted string with at least two components, all of which
parse non-negative, the encoder always succeeds, whatever the size of the
encoded body, and the emitted length field is the single byte
body-length mod 256: there is no check that the body fits in 127 bytes. -/
theorem encodeOID_c10 (oid : String)
    (h2 : 2 ≤ ((splitDot oid.data).map parseJSNumber).length)
    (hnn : ∀ o ∈ (splitDot oid.data).map parseJSNumber, 0 ≤ o.getD 0) :
    ∃ body : List Nat,
      encodeDERObjectIdentifier oid = .ok (0x06 :: (body.length % 256) :: body) := by
  obtain ⟨enc, henc⟩ := oidLoop_ok (((splitDot oid.data).map parseJSNumber).drop 2)
    [oidFirst ((splitDot oid.data).map parseJSNumber)]
    (fun o ho => hnn o (List.drop_subset _ _ ho))
  refine ⟨enc.map jsToUint8, ?_⟩
  unfold encodeDERObjectIdentifier
  rw [if_neg (by omega)]
  rw [henc, List.length_map]

/-- C10 witness: the well-formed OID 1.2.3 encodes successfully in the
claimed shape. -/
theorem encodeOID_c10_witness :
    ∃ body : List Nat,
      encodeDERObjectIdentifier "1.2.3" = .ok (0x06 :: (body.length % 256) :: body) :=
  encodeOID_c10 "1.2.3" (by decide) (by decide)

/-- C1 amended: decodeSerialNumber extracts exactly the serial number
content bytes as lower-case hex for certificates in which the Certificate
and tbsCertificate SEQUENCE headers both use long-form lengths (k1 and k2
length bytes after the leading size byte) and the version and serial number
length fields are single short-form bytes; its offset arithmetic assumes
this shape, and the counterexample shows it fails on short-form outer
lengths. -/
theorem decodeSerialNumber_c1 (k1 k2 : Nat) (lb1 lb2 vbytes sbytes rest : List Nat)
    (hk1a : 1 ≤ k1) (hk1b : k1 ≤ 127) (hk2a : 1 ≤ k2) (hk2b : k2 ≤ 127)
    (hl1 : lb1.length = k1) (hl2 : lb2.length = k2) :
    decodeSerialNumber (0x30 :: ((128 + k1) :: (lb1 ++ (0x30 :: ((128 + k2) :: (lb2 ++
      (0xA0 :: (vbytes.length :: (vbytes ++ (0x02 :: (sbytes.length ::
      (sbytes ++ rest)))))))))))) = some (bytesToHex sbytes) := by
  set T3 : List Nat := 0x02 :: (sbytes.length :: (sbytes ++ rest)) with hT3
  set T2 : List Nat := 0xA0 :: (vbytes.length :: (vbytes ++ T3)) with hT2
  set T1 : List Nat := 0x30 :: ((128 + k2) :: (lb2 ++ T2)) with hT1
  set B : List Nat := 0x30 :: ((128 + k1) :: (lb1 ++ T1)) with hB
  have h0 : jsIndex B 0 = some 0x30 := by
    have h := jsIndex_at [] 0x30 ((128 + k1) :: (lb1 ++ T1))
    rw [hB]
    simpa using h
  have h1 : readASN1Length B 1 = some ⟨lengthFromBytes lb1, k1⟩ := by
    have h := readASN1Length_long [0x30] lb1 T1 k1 hk1a hk1b hl1
    rw [hB]
    simpa using h
  have h2 : readASN1Length B (1 + (k1 : Int) + 2) = some ⟨lengthFromBytes lb2, k2⟩ := by
    have h := readASN1Length_long ([0x30, 128 + k1] ++ (lb1 ++ [0x30])) lb2 T2 k2 hk2a hk2b hl2
    have hlen : ((([0x30, 128 + k1] ++ (lb1 ++ [0x30])).length : Nat) : Int)
        = 1 + (k1 : Int) + 2 := by
      simp [hl1]
      ring
    rw [hlen] at h
    have hsh : ([0x30, 128 + k1] ++ (lb1 ++ [0x30])) ++ ((128 + k2) :: (lb2 ++ T2)) = B := by
      rw [hB, hT1]
      simp
    rw [hsh] at h
    exact h
  have h4 : jsIndex B (1 + (k1 : Int) + 2 + (k2 : Nat) + 2 - 1) = some 0xA0 := by
    have h := jsIndex_at ([0x30, 128 + k1] ++ (lb1 ++ ([0x30, 128 + k2] ++ lb2))) 0xA0
      (vbytes.length :: (vbytes ++ T3))
    have hlen : ((([0x30, 128 + k1] ++ (lb1 ++ ([0x30, 128 + k2] ++ lb2))).length : Nat) : Int)
        = 1 + (k1 : Int) + 2 + (k2 : Nat) + 2 - 1 := by
      simp [hl1, hl2]
      ring
    rw [hlen] at h
    have hsh : ([0x30, 128 + k1] ++ (lb1 ++ ([0x30, 128 + k2] ++ lb2)))
        ++ (0xA0 :: (vbytes.length :: (vbytes ++ T3))) = B := by
      rw [hB, hT1, hT2]
      simp
    rw [hsh] at h
    exact h
  have h5 : jsIndex B (1 + (k1 : Int) + 2 + (k2 : Nat) + 2) = some vbytes.length := by
    have h := jsIndex_at ([0x30, 128 + k1] ++ (lb1 ++ ([0x30, 128 + k2] ++ (lb2 ++ [0xA0]))))
      vbytes.length (vbytes ++ T3)
    have hlen : ((([0x30, 128 + k1] ++ (lb1 ++ ([0x30, 128 + k2] ++ (lb2 ++ [0xA0])))).length
        : Nat) : Int) = 1 + (k1 : Int) + 2 + (k2 : Nat) + 2 := by
      simp [hl1, hl2]
      ring
    rw [hlen] at h
    have hsh : ([0x30, 128 + k1] ++ (lb1 ++ ([0x30, 128 + k2] ++ (lb2 ++ [0xA0]))))
        ++ (vbytes.length :: (vbytes ++ T3)) = B := by
      rw [hB, hT1, hT2]
      simp
    rw [hsh] at h
    exact h
  have h6 : jsIndex B (1 + (k1 : Int) + 2 + (k2 : Nat) + 2 + (vbytes.length : Nat) + 2 - 1)
      = some 0x02 := by
    have h := jsIndex_at ([0x30, 128 + k1] ++ (lb1 ++ ([0x30, 128 + k2] ++ (lb2 ++
      (0xA0 :: (vbytes.length :: vbytes)))))) 0x02 (sbytes.length :: (sbytes ++ rest))
    have hlen : ((([0x30, 128 + k1] ++ (lb1 ++ ([0x30, 128 + k2] ++ (lb2 ++
        (0xA0 :: (vbytes.length :: vbytes)))))).length : Nat) : Int)
        = 1 + (k1 : Int) + 2 + (k2 : Nat) + 2 + (vbytes.length : Nat) + 2 - 1 := by
      simp [hl1, hl2]
      ring
    rw [hlen] at h
    have hsh : ([0x30, 128 + k1] ++ (lb1 ++ ([0x30, 128 + k2] ++ (lb2 ++
        (0xA0 :: (vbytes.length :: vbytes)))))) ++ (0x02 :: (sbytes.length :: (sbytes ++ rest)))
        = B := by
      rw [hB, hT1, hT2, hT3]
      simp
    rw [hsh] at h
    exact h
  have h7 : jsIndex B (1 + (k1 : Int) + 2 + (k2 : Nat) + 2 + (vbytes.length : Nat) + 2)
      = some sbytes.length := by
    have h := jsIndex_at ([0x30, 128 + k1] ++ (lb1 ++ ([0x30, 128 + k2] ++ (lb2 ++
      (0xA0 :: (vbytes.length :: (vbytes ++ [0x02]))))))) sbytes.length (sbytes ++ rest)
    have hlen : ((([0x30, 128 + k1] ++ (lb1 ++ ([0x30, 128 + k2] ++ (lb2 ++
        (0xA0 :: (vbytes.length :: (vbytes ++ [0x02]))))))).length : Nat) : Int)
        = 1 + (k1 : Int) + 2 + (k2 : Nat) + 2 + (vbytes.length : Nat) + 2 := by
      simp [hl1, hl2]
      ring
    rw [hlen] at h
    have hsh : ([0x30, 128 + k1] ++ (lb1 ++ ([0x30, 128 + k2] ++ (lb2 ++
        (0xA0 :: (vbytes.length :: (vbytes ++ [0x02]))))))) ++ (sbytes.length :: (sbytes ++ rest))
        = B := by
      rw [hB, hT1, hT2, hT3]
      simp
    rw [hsh] at h
    exact h
  have h8 : jsSlice B (1 + (k1 : Int) + 2 + (k2 : Nat) + 2 + (vbytes.length : Nat) + 2 + 1)
      (1 + (k1 : Int) + 2 + (k2 : Nat) + 2 + (vbytes.length : Nat) + 2 + (sbytes.length : Nat) + 1)
      = sbytes := by
    have h := jsSlice_middle ([0x30, 128 + k1] ++ (lb1 ++ ([0x30, 128 + k2] ++ (lb2 ++
      (0xA0 :: (vbytes.length :: (vbytes ++ [0x02, sbytes.length]))))))) sbytes rest
    have hlen : ((([0x30, 128 + k1] ++ (lb1 ++ ([0x30, 128 + k2] ++ (lb2 ++
        (0xA0 :: (vbytes.length :: (vbytes ++ [0x02, sbytes.length]))))))).length : Nat) : Int)
        = 1 + (k1 : Int) + 2 + (k2 : Nat) + 2 + (vbytes.length : Nat) + 2 + 1 := by
      simp [hl1, hl2]
      ring
    rw [hlen] at h
    have hend : (1 + (k1 : Int) + 2 + (k2 : Nat) + 2 + (vbytes.length : Nat) + 2 + 1)
        + (sbytes.length : Int)
        = 1 + (k1 : Int) + 2 + (k2 : Nat) + 2 + (vbytes.length : Nat) + 2
          + (sbytes.length : Nat) + 1 := by
      ring
    rw [hend] at h
    have hsh : ([0x30, 128 + k1] ++ (lb1 ++ ([0x30, 128 + k2] ++ (lb2 ++
        (0xA0 :: (vbytes.length :: (vbytes ++ [0x02, sbytes.length]))))))) ++ sbytes ++ rest
        = B := by
      rw [hB, hT1, hT2, hT3]
      simp
    rw [hsh] at h
    exact h
  unfold decodeSerialNumber
  rw [if_neg (by simp [h0])]
  rw [h1]
  dsimp only
  rw [h2]
  dsimp only
  rw [if_neg (by simp [h4])]
  rw [h5]
  dsimp only
  rw [if_neg (by simp [h6])]
  rw [h7]
  dsimp only
  rw [h8]

/-- C1 witness: a 14-byte certificate with one-byte long-form lengths and
serial content byte 0x2A decodes to the hex string 2a. -/
theorem decodeSerialNumber_c1_witness :
    decodeSerialNumber [0x30, 0x81, 0x00, 0x30, 0x81, 0x00, 0xA0, 0x03, 0x02, 0x01,
      0x02, 0x02, 0x01, 0x2A] = some "2a" := by
  have h := decodeSerialNumber_c1 1 1 [0x00] [0x00] [0x02, 0x01, 0x02] [0x2A] []
    (by omega) (by omega) (by omega) (by omega) (by decide) (by decide)
  have hhex : bytesToHex [0x2A] = "2a" := by decide
  rw [hhex] at h
  simpa using h
